import Mathlib

/-!
Shallow embedding of the order/cart/checkout core of the storefront:
the order service (cart management, checkout orchestration, order reads,
status update) and the product service's stock-adjustment endpoint, with
collaborator-call failures modelled by an explicit environment.
-/

/-- A product as the core reads it from the catalog: name, price, stock
and image (`GET /products/:id`). Prices, stocks and quantities are JS
numbers used as integers throughout the relevant code, so we model them
as `Int`. -/
structure Product where
  name : String
  price : Int
  stock : Int
  image : String
deriving DecidableEq, Repr

/-- The product catalog: an association list from productId to product
(the products collection keyed by `_id`). -/
abbrev Catalog := List (Nat × Product)

/-- `Product.findById`: first entry with the given id. -/
def lookupProduct : Catalog → Nat → Option Product
  | [], _ => none
  | (k, p) :: rest, pid => if k = pid then some p else lookupProduct rest pid

/-- `product.save()` after mutating the looked-up document: replace the
entry with the given id. -/
def updateProduct : Catalog → Nat → Product → Catalog
  | [], _, _ => []
  | (k, q) :: rest, pid, p =>
    if k = pid then (k, p) :: updateProduct rest pid p
    else (k, q) :: updateProduct rest pid p

/-- The `operation` field of `PATCH /products/:id/stock`. -/
inductive StockOp where
  | decrease
  | increase
  | other
deriving DecidableEq, Repr

/-- Errors of the stock endpoint: 404 product absent, 400 insufficient. -/
inductive StockErr where
  | notFound
  | insufficientStock
deriving DecidableEq, Repr

/-- `PATCH /products/:id/stock` of the product service: look up the
product (404 if absent); on `decrease`, reject with 400 when
`product.stock < quantity`, else subtract; on `increase` add; any other
operation saves the product unchanged. Returns the response (`newStock`
on success) together with the catalog after the request. -/
def adjustStock (catalog : Catalog) (pid : Nat) (qty : Int) (op : StockOp) :
    Except StockErr Int × Catalog :=
  match lookupProduct catalog pid with
  | none => (.error .notFound, catalog)
  | some p =>
    match op with
    | .decrease =>
      if p.stock < qty then (.error .insufficientStock, catalog)
      else (.ok (p.stock - qty), updateProduct catalog pid { p with stock := p.stock - qty })
    | .increase =>
      (.ok (p.stock + qty), updateProduct catalog pid { p with stock := p.stock + qty })
    | .other => (.ok p.stock, catalog)

/-- One entry of a cart's `items` array: `{productId, quantity}`. -/
structure CartLine where
  productId : Nat
  quantity : Int
deriving DecidableEq, Repr

/-- One entry of an order's `items` array: the snapshot
`{productId, name, price, quantity, image}` taken at checkout. -/
structure OrderItem where
  productId : Nat
  name : String
  price : Int
  quantity : Int
  image : String
deriving DecidableEq, Repr

/-- The `status` enum of the order schema. -/
inductive OrderStatus where
  | pending
  | confirmed
  | processing
  | shipped
  | delivered
  | cancelled
deriving DecidableEq, Repr

/-- The `paymentStatus` enum of the order schema. -/
inductive PaymentStatus where
  | pending
  | completed
  | failed
  | refunded
deriving DecidableEq, Repr

/-- An order document. `shippingAddress` is kept opaque; timestamps are
abstract ticks. -/
structure Order where
  orderId : Nat
  userId : Nat
  items : List OrderItem
  totalAmount : Int
  status : OrderStatus
  paymentStatus : PaymentStatus
  shippingAddress : String
  createdAt : Nat
  updatedAt : Nat
deriving DecidableEq, Repr

/-- A record of one accepted `POST /notifications/send` call. -/
structure Notification where
  kind : String
  userId : Nat
  orderId : Nat
deriving DecidableEq, Repr

/-- The carts collection: userId to that cart's `items`. -/
abbrev Carts := List (Nat × List CartLine)

/-- The durable state the order service acts on: the catalog (behind the
product service), the carts and orders collections, the notifications the
notification service has accepted, and the id the next saved order gets. -/
structure SysState where
  catalog : Catalog
  carts : Carts
  orders : List Order
  notifications : List Notification
  nextOrderId : Nat
deriving DecidableEq, Repr

/-- Which collaborator HTTP calls fail in flight (network/timeout): a
failed axios call throws in the handler. `getFails pid` is a failing
`GET /products/:pid`, `stockFails pid` a failing
`PATCH /products/:pid/stock`, `notifyFails` a failing
`POST /notifications/send`. -/
structure Env where
  getFails : Nat → Bool
  stockFails : Nat → Bool
  notifyFails : Bool

/-- The environment in which every collaborator call goes through. -/
def Env.ok : Env := ⟨fun _ => false, fun _ => false, false⟩

/-- `Cart.findOne({userId})`: items of the first cart of that user. -/
def findCart : Carts → Nat → Option (List CartLine)
  | [], _ => none
  | (k, ls) :: rest, uid => if k = uid then some ls else findCart rest uid

/-- `cart.save()` (replace the user's cart document, creating it if
absent). -/
def setCart : Carts → Nat → List CartLine → Carts
  | [], uid, ls => [(uid, ls)]
  | (k, ls0) :: rest, uid, ls =>
    if k = uid then (k, ls) :: rest else (k, ls0) :: setCart rest uid ls

/-- `Cart.deleteOne({userId})`: drop the first cart of that user. -/
def removeCart : Carts → Nat → Carts
  | [], _ => []
  | (k, ls) :: rest, uid => if k = uid then rest else (k, ls) :: removeCart rest uid

/-- The upsert of `POST /cart/add`: the first line with this productId
has its quantity incremented; if none exists a new line is appended. -/
def addItemToLines : List CartLine → Nat → Int → List CartLine
  | [], pid, qty => [⟨pid, qty⟩]
  | l :: ls, pid, qty =>
    if l.productId = pid then { l with quantity := l.quantity + qty } :: ls
    else l :: addItemToLines ls pid qty

/-- `POST /cart/add {productId, quantity}`: verify the product resolves
at the catalog (a failing or 404 lookup makes the handler error), load or
create the user's cart, upsert the line, save. -/
def addItem (env : Env) (s : SysState) (uid pid : Nat) (qty : Int) :
    Except Unit SysState :=
  if env.getFails pid then .error ()
  else match lookupProduct s.catalog pid with
    | none => .error ()
    | some _ =>
      let lines := (findCart s.carts uid).getD []
      .ok { s with carts := setCart s.carts uid (addItemToLines lines pid qty) }

/-- One row of the `GET /cart` response. -/
structure CartView where
  productId : Nat
  name : String
  price : Int
  quantity : Int
  image : String
  subtotal : Int
deriving DecidableEq, Repr

/-- The per-item loop of `GET /cart`: each line's product is fetched; a
failing or 404 lookup is caught and logged, and the line is skipped;
resolved lines contribute a row and their subtotal to the total. -/
def getCartLoop (env : Env) (catalog : Catalog) : List CartLine → List CartView × Int
  | [] => ([], 0)
  | item :: rest =>
    let (vs, t) := getCartLoop env catalog rest
    if env.getFails item.productId then (vs, t)
    else match lookupProduct catalog item.productId with
      | none => (vs, t)
      | some p =>
        (⟨item.productId, p.name, p.price, item.quantity, p.image,
          p.price * item.quantity⟩ :: vs, p.price * item.quantity + t)

/-- `GET /cart`: empty response when the user has no cart, otherwise the
per-item loop; the handler performs no writes, so the state is returned
unchanged. -/
def getCart (env : Env) (s : SysState) (uid : Nat) :
    (List CartView × Int) × SysState :=
  match findCart s.carts uid with
  | none => (([], 0), s)
  | some items => (getCartLoop env s.catalog items, s)

/-- Checkout errors as the handler reports them: 400 `Cart is empty`,
400 `Insufficient stock for <name>`, and the generic 500 of the outer
catch (a thrown collaborator call or 404 product lookup lands there). -/
inductive OrderError where
  | emptyCart
  | insufficientStock (name : String)
  | internalError
deriving DecidableEq, Repr

/-- The validation loop of `POST /orders` (steps 2-4): for each cart
line fetch the product — a failing or 404 lookup throws to the outer
catch — reject with `InsufficientStock(name)` when
`product.stock < quantity`, else snapshot the line and accumulate the
total. -/
def buildOrderItems (env : Env) (catalog : Catalog) :
    List CartLine → Except OrderError (List OrderItem × Int)
  | [] => .ok ([], 0)
  | item :: rest =>
    if env.getFails item.productId then .error .internalError
    else match lookupProduct catalog item.productId with
      | none => .error .internalError
      | some p =>
        if p.stock < item.quantity then .error (.insufficientStock p.name)
        else match buildOrderItems env catalog rest with
          | .error e => .error e
          | .ok (ois, t) =>
            .ok (⟨item.productId, p.name, p.price, item.quantity, p.image⟩ :: ois,
              p.price * item.quantity + t)

/-- The stock-decrement loop of `POST /orders` (step 6): one
`PATCH /products/:id/stock {quantity, operation: decrease}` per order
line. A call that fails in flight, or that the product service answers
with 4xx, throws to the outer catch, leaving the decrements already made
in place; `none` marks that throw. -/
def decrementLoop (env : Env) (catalog : Catalog) :
    List OrderItem → Option Unit × Catalog
  | [] => (some (), catalog)
  | item :: rest =>
    if env.stockFails item.productId then (none, catalog)
    else match adjustStock catalog item.productId item.quantity .decrease with
      | (.error _, c) => (none, c)
      | (.ok _, c) => decrementLoop env c rest

/-- `POST /orders` (the checkout orchestrator): load the cart (400
`EmptyCart` when absent or without lines), validate and snapshot every
line, persist the order with default status/paymentStatus `pending`,
decrement stock line by line, clear the cart, then best-effort notify —
a notification failure is logged and swallowed. A throw after the order
was saved reaches the outer catch: the response is the generic 500 but
the order stays persisted and the cart is not cleared. Returns the
response together with the state after the request. -/
def createOrder (env : Env) (s : SysState) (uid : Nat) (addr : String) (now : Nat) :
    Except OrderError Order × SysState :=
  match findCart s.carts uid with
  | none => (.error .emptyCart, s)
  | some items =>
    if items.isEmpty then (.error .emptyCart, s)
    else match buildOrderItems env s.catalog items with
      | .error e => (.error e, s)
      | .ok (ois, total) =>
        let order : Order :=
          { orderId := s.nextOrderId, userId := uid, items := ois,
            totalAmount := total, status := .pending, paymentStatus := .pending,
            shippingAddress := addr, createdAt := now, updatedAt := now }
        let s1 := { s with orders := s.orders ++ [order], nextOrderId := s.nextOrderId + 1 }
        match decrementLoop env s1.catalog ois with
        | (none, c) => (.error .internalError, { s1 with catalog := c })
        | (some _, c) =>
          let s2 := { s1 with catalog := c, carts := removeCart s1.carts uid }
          let s3 :=
            if env.notifyFails then s2
            else { s2 with
              notifications := s2.notifications ++ [⟨"order_created", uid, order.orderId⟩] }
          (.ok order, s3)

/-- `Order.findOne({_id, userId})`: first order with this id owned by
this user. -/
def findById : List Order → Nat → Nat → Option Order
  | [], _, _ => none
  | o :: rest, oid, uid =>
    if o.orderId = oid ∧ o.userId = uid then some o else findById rest oid uid

/-- Later orders first: the `sort({createdAt: -1})` order. -/
def laterFirst (a b : Order) : Prop := b.createdAt ≤ a.createdAt

instance : DecidableRel laterFirst := fun a b => Nat.decLe b.createdAt a.createdAt

instance : IsTotal Order laterFirst :=
  ⟨fun a b => (Nat.le_total b.createdAt a.createdAt).elim Or.inl Or.inr⟩

instance : IsTrans Order laterFirst :=
  ⟨fun _ _ _ h1 h2 => Nat.le_trans h2 h1⟩

/-- `GET /orders`: `Order.find({userId}).sort({createdAt: -1})`. -/
def listByUser (orders : List Order) (uid : Nat) : List Order :=
  List.insertionSort laterFirst (orders.filter (fun o => o.userId == uid))

/-- The `findOneAndUpdate({_id, userId}, {status, updatedAt})` of
`PATCH /orders/:id/status`: replace the first order matching both keys,
returning the updated document. -/
def findAndUpdate : List Order → Nat → Nat → OrderStatus → Nat →
    Option (Order × List Order)
  | [], _, _, _, _ => none
  | o :: rest, oid, uid, st, now =>
    if o.orderId = oid ∧ o.userId = uid then
      let o' := { o with status := st, updatedAt := now }
      some (o', o' :: rest)
    else match findAndUpdate rest oid uid st now with
      | none => none
      | some (o', rest') => some (o', o :: rest')

/-- `PATCH /orders/:id/status`: update the order scoped to
(orderId, userId) — 404 when no such order — then best-effort notify,
a notification failure being logged and swallowed. -/
def updateStatus (env : Env) (s : SysState) (oid uid : Nat) (st : OrderStatus)
    (now : Nat) : Option Order × SysState :=
  match findAndUpdate s.orders oid uid st now with
  | none => (none, s)
  | some (o', orders') =>
    let s1 := { s with orders := orders' }
    let s2 :=
      if env.notifyFails then s1
      else { s1 with
        notifications := s1.notifications ++ [⟨"order_status_updated", uid, oid⟩] }
    (some o', s2)

/-- Whether a cart line's `GET /products/:id` comes back with a product
(the call does not fail in flight and the id exists). -/
def resolves (env : Env) (catalog : Catalog) (l : CartLine) : Bool :=
  !env.getFails l.productId && (lookupProduct catalog l.productId).isSome

/-- The `GET /cart` row a resolved line produces. -/
def lineView (catalog : Catalog) (l : CartLine) : CartView :=
  match lookupProduct catalog l.productId with
  | some p => ⟨l.productId, p.name, p.price, l.quantity, p.image, p.price * l.quantity⟩
  | none => ⟨l.productId, "", 0, l.quantity, "", 0⟩

/-- The order line a cart line yields at checkout when its product
resolves (the snapshot built by the validation loop). -/
def toOrderItem (catalog : Catalog) (l : CartLine) : OrderItem :=
  match lookupProduct catalog l.productId with
  | some p => ⟨l.productId, p.name, p.price, l.quantity, p.image⟩
  | none => ⟨l.productId, "", 0, l.quantity, ""⟩

/-- Sum over order lines of snapshot price × quantity. -/
def orderTotal : List OrderItem → Int
  | [] => 0
  | i :: rest => i.price * i.quantity + orderTotal rest

/-- The catalog of the spec's checkout scenario: product `p1` (id 11)
with price 10 and stock 5. -/
def demoCatalog : Catalog := [(11, ⟨"p1", 10, 5, "img"⟩)]

/-- The scenario state: user 1's cart holds 2 units of product 11. -/
def demoState : SysState := ⟨demoCatalog, [(1, [⟨11, 2⟩])], [], [], 0⟩

/-- The scenario state with quantity 10 instead, exceeding the stock. -/
def demoStateBig : SysState := ⟨demoCatalog, [(1, [⟨11, 10⟩])], [], [], 0⟩

/-- The environment in which every `PATCH /products/:id/stock` call
fails in flight while everything else goes through. -/
def envStockFail : Env := ⟨fun _ => false, fun _ => true, false⟩

theorem lookupProduct_updateProduct_self (catalog : Catalog) (pid : Nat) (p q : Product)
    (h : lookupProduct catalog pid = some q) :
    lookupProduct (updateProduct catalog pid p) pid = some p := by
  induction catalog with
  | nil => simp [lookupProduct] at h
  | cons e rest ih =>
    obtain ⟨k, r⟩ := e
    by_cases hk : k = pid
    · simp [lookupProduct, updateProduct, hk]
    · simp [lookupProduct, updateProduct, hk] at h ⊢
      exact ih h

theorem lookupProduct_updateProduct_ne (catalog : Catalog) (pid pid' : Nat) (p : Product)
    (h : pid' ≠ pid) :
    lookupProduct (updateProduct catalog pid p) pid' = lookupProduct catalog pid' := by
  induction catalog with
  | nil => simp [updateProduct, lookupProduct]
  | cons e rest ih =>
    obtain ⟨k, r⟩ := e
    by_cases hk : k = pid
    · subst hk
      simp [lookupProduct, updateProduct, Ne.symm h, ih]
    · by_cases hk' : k = pid'
      · simp [lookupProduct, updateProduct, hk, hk', h]
      · simp [lookupProduct, updateProduct, hk, hk', ih]

theorem lookupProduct_mem {catalog : Catalog} {pid : Nat} {p : Product}
    (h : lookupProduct catalog pid = some p) : (pid, p) ∈ catalog := by
  induction catalog with
  | nil => simp [lookupProduct] at h
  | cons e rest ih =>
    obtain ⟨k, r⟩ := e
    by_cases hk : k = pid
    · subst hk
      simp [lookupProduct] at h
      simp [h]
    · simp [lookupProduct, hk] at h
      exact List.mem_cons_of_mem _ (ih h)

theorem mem_updateProduct {catalog : Catalog} {pid : Nat} {p : Product}
    {e : Nat × Product} (h : e ∈ updateProduct catalog pid p) :
    e.2 = p ∨ e ∈ catalog := by
  induction catalog with
  | nil => simp [updateProduct] at h
  | cons f rest ih =>
    obtain ⟨k, r⟩ := f
    by_cases hk : k = pid
    · simp [updateProduct, hk] at h
      rcases h with h | h
      · left; simp [h]
      · rcases ih h with h' | h'
        · exact Or.inl h'
        · exact Or.inr (List.mem_cons_of_mem _ h')
    · simp [updateProduct, hk] at h
      rcases h with h | h
      · right; simp [h]
      · rcases ih h with h' | h'
        · exact Or.inl h'
        · exact Or.inr (List.mem_cons_of_mem _ h')

/-- C8: `adjustStock(productId, quantity, direction)`: `NotFound` when the
product does not exist; for `decrease` with `quantity > stock`,
`InsufficientStock` with the catalog unchanged; otherwise success
returning the new stock — old − quantity for decrease, old + quantity for
increase — with the catalog updated accordingly. -/
theorem adjustStock_spec (catalog : Catalog) (pid : Nat) (qty : Int) :
    (lookupProduct catalog pid = none →
      ∀ op, adjustStock catalog pid qty op = (.error .notFound, catalog)) ∧
    (∀ p, lookupProduct catalog pid = some p →
      (p.stock < qty →
        adjustStock catalog pid qty .decrease = (.error .insufficientStock, catalog)) ∧
      (qty ≤ p.stock →
        adjustStock catalog pid qty .decrease =
          (.ok (p.stock - qty), updateProduct catalog pid { p with stock := p.stock - qty }) ∧
        lookupProduct (adjustStock catalog pid qty .decrease).2 pid =
          some { p with stock := p.stock - qty }) ∧
      (adjustStock catalog pid qty .increase =
          (.ok (p.stock + qty), updateProduct catalog pid { p with stock := p.stock + qty }) ∧
        lookupProduct (adjustStock catalog pid qty .increase).2 pid =
          some { p with stock := p.stock + qty })) := by
  constructor
  · intro h op
    simp [adjustStock, h]
  · intro p hp
    refine ⟨fun hlt => by simp [adjustStock, hp, hlt], fun hle => ?_, ?_⟩
    · have hnl : ¬p.stock < qty := not_lt.mpr hle
      constructor
      · simp [adjustStock, hp, hnl]
      · simp only [adjustStock, hp, hnl, if_false]
        exact lookupProduct_updateProduct_self _ _ _ _ hp
    · constructor
      · simp [adjustStock, hp]
      · simp only [adjustStock, hp]
        exact lookupProduct_updateProduct_self _ _ _ _ hp

theorem adjustStock_spec_witness :
    (lookupProduct [(1, ⟨"A", 10, 5, "i"⟩)] 2 = none ∧
      adjustStock [(1, ⟨"A", 10, 5, "i"⟩)] 2 3 .decrease = (.error .notFound, [(1, ⟨"A", 10, 5, "i"⟩)])) ∧
    (lookupProduct [(1, ⟨"A", 10, 5, "i"⟩)] 1 = some ⟨"A", 10, 5, "i"⟩ ∧
      adjustStock [(1, ⟨"A", 10, 5, "i"⟩)] 1 7 .decrease =
        (.error .insufficientStock, [(1, ⟨"A", 10, 5, "i"⟩)]) ∧
      adjustStock [(1, ⟨"A", 10, 5, "i"⟩)] 1 3 .decrease =
        (.ok 2, [(1, ⟨"A", 10, 2, "i"⟩)]) ∧
      adjustStock [(1, ⟨"A", 10, 5, "i"⟩)] 1 3 .increase =
        (.ok 8, [(1, ⟨"A", 10, 8, "i"⟩)])) := by
  refine ⟨⟨by decide, ?_⟩, by decide, ?_, ?_, ?_⟩
  · exact (adjustStock_spec [(1, ⟨"A", 10, 5, "i"⟩)] 2 3).1 (by decide) .decrease
  · exact ((adjustStock_spec [(1, ⟨"A", 10, 5, "i"⟩)] 1 7).2 ⟨"A", 10, 5, "i"⟩ (by decide)).1 (by decide)
  · exact (((adjustStock_spec [(1, ⟨"A", 10, 5, "i"⟩)] 1 3).2 ⟨"A", 10, 5, "i"⟩ (by decide)).2.1 (by decide)).1
  · exact ((adjustStock_spec [(1, ⟨"A", 10, 5, "i"⟩)] 1 3).2 ⟨"A", 10, 5, "i"⟩ (by decide)).2.2.1

/-- C10: the stock endpoint preserves non-negativity of every stock in
the catalog, for every product id, non-negative quantity and operation: a
decrease that would go negative is rejected before any mutation, and an
increase only adds. -/
theorem adjustStock_nonneg_invariant (catalog : Catalog) (pid : Nat) (qty : Int)
    (op : StockOp) (hq : 0 ≤ qty) (hcat : ∀ e ∈ catalog, 0 ≤ e.2.stock) :
    ∀ e ∈ (adjustStock catalog pid qty op).2, 0 ≤ e.2.stock := by
  intro e he
  cases hl : lookupProduct catalog pid with
  | none =>
    rw [adjustStock, hl] at he
    exact hcat e he
  | some p =>
    have hp : 0 ≤ p.stock := hcat (pid, p) (lookupProduct_mem hl)
    cases op with
    | decrease =>
      by_cases hlt : p.stock < qty
      · rw [adjustStock, hl] at he
        simp only [hlt, if_true] at he
        exact hcat e he
      · rw [adjustStock, hl] at he
        simp only [hlt, if_false] at he
        rcases mem_updateProduct he with h | h
        · rw [h]
          simp only [not_lt] at hlt
          show (0 : Int) ≤ p.stock - qty
          omega
        · exact hcat e h
    | increase =>
      rw [adjustStock, hl] at he
      rcases mem_updateProduct he with h | h
      · rw [h]; simpa using add_nonneg hp hq
      · exact hcat e h
    | other =>
      rw [adjustStock, hl] at he
      exact hcat e he

theorem adjustStock_nonneg_invariant_witness :
    (0 : Int) ≤ 3 ∧ (∀ e ∈ [((1 : Nat), (⟨"A", 10, 5, "i"⟩ : Product))], 0 ≤ e.2.stock) ∧
    ∀ e ∈ (adjustStock [(1, ⟨"A", 10, 5, "i"⟩)] 1 3 .decrease).2, 0 ≤ e.2.stock :=
  ⟨by decide, by decide,
    adjustStock_nonneg_invariant [(1, ⟨"A", 10, 5, "i"⟩)] 1 3 .decrease (by decide) (by decide)⟩

theorem map_addItemToLines (lines : List CartLine) (pid : Nat) (qty : Int) :
    (addItemToLines lines pid qty).map CartLine.productId =
      if pid ∈ lines.map CartLine.productId then lines.map CartLine.productId
      else lines.map CartLine.productId ++ [pid] := by
  induction lines with
  | nil => simp [addItemToLines]
  | cons l ls ih =>
    by_cases hl : l.productId = pid
    · simp [addItemToLines, hl]
    · simp only [addItemToLines, hl, if_false, List.map_cons, List.mem_cons, ih]
      by_cases hm : pid ∈ ls.map CartLine.productId
      · simp [hm]
      · simp [hm, Ne.symm hl]

theorem findCart_setCart_self (carts : Carts) (uid : Nat) (ls : List CartLine) :
    findCart (setCart carts uid ls) uid = some ls := by
  induction carts with
  | nil => simp [setCart, findCart]
  | cons e rest ih =>
    obtain ⟨k, ls0⟩ := e
    by_cases hk : k = uid
    · simp [setCart, findCart, hk]
    · simp [setCart, findCart, hk, ih]

/-- C5: `addItem` upserts — a line with the given productId has its
quantity incremented by the given amount, otherwise a new line is
appended — so a cart with at most one line per productId keeps that
shape; adding q1 then q2 of one product to an empty cart yields the
single line with quantity q1 + q2; and the full `POST /cart/add` handler
saves exactly the upserted cart when the product resolves. -/
theorem addItem_upsert_invariant (lines : List CartLine) (pid : Nat) (qty : Int) :
    (pid ∉ lines.map CartLine.productId →
      addItemToLines lines pid qty = lines ++ [⟨pid, qty⟩]) ∧
    (∀ pre q0 post, lines = pre ++ ⟨pid, q0⟩ :: post →
      pid ∉ pre.map CartLine.productId →
      addItemToLines lines pid qty = pre ++ ⟨pid, q0 + qty⟩ :: post) ∧
    ((lines.map CartLine.productId).Nodup →
      ((addItemToLines lines pid qty).map CartLine.productId).Nodup) ∧
    (∀ q1 q2 : Int, addItemToLines (addItemToLines [] pid q1) pid q2 = [⟨pid, q1 + q2⟩]) ∧
    (∀ (env : Env) (s : SysState) (uid : Nat) (p : Product),
      env.getFails pid = false → lookupProduct s.catalog pid = some p →
      addItem env s uid pid qty =
        Except.ok { s with
          carts := setCart s.carts uid
            (addItemToLines ((findCart s.carts uid).getD []) pid qty) } ∧
      findCart (setCart s.carts uid
          (addItemToLines ((findCart s.carts uid).getD []) pid qty)) uid =
        some (addItemToLines ((findCart s.carts uid).getD []) pid qty)) := by
  refine ⟨?_, ?_, ?_, ?_, ?_⟩
  · intro hnm
    induction lines with
    | nil => simp [addItemToLines]
    | cons l ls ih =>
      simp only [List.map_cons, List.mem_cons] at hnm
      push_neg at hnm
      simp [addItemToLines, Ne.symm hnm.1, ih hnm.2]
  · intro pre q0 post hsplit hnm
    subst hsplit
    induction pre with
    | nil => simp [addItemToLines]
    | cons x pre' ih =>
      simp only [List.map_cons, List.mem_cons] at hnm
      push_neg at hnm
      simp [addItemToLines, Ne.symm hnm.1, ih hnm.2]
  · intro hnd
    rw [map_addItemToLines]
    by_cases hm : pid ∈ lines.map CartLine.productId
    · simp [hm, hnd]
    · simp [hm, hnd, List.nodup_append]
  · intro q1 q2
    simp [addItemToLines]
  · intro env s uid p hg hp
    refine ⟨?_, findCart_setCart_self _ _ _⟩
    simp [addItem, hg, hp]

theorem addItem_upsert_invariant_witness :
    ((3 : Nat) ∉ ([⟨7, 2⟩] : List CartLine).map CartLine.productId ∧
      addItemToLines [⟨7, 2⟩] 3 4 = [⟨7, 2⟩, ⟨3, 4⟩]) ∧
    (addItemToLines [⟨7, 2⟩] 7 3 = [⟨7, 5⟩]) ∧
    (addItemToLines (addItemToLines [] 7 2) 7 3 = [⟨7, 5⟩]) ∧
    (addItem Env.ok ⟨[(7, ⟨"A", 10, 5, "i"⟩)], [], [], [], 0⟩ 1 7 2 =
      .ok ⟨[(7, ⟨"A", 10, 5, "i"⟩)], [(1, [⟨7, 2⟩])], [], [], 0⟩) := by
  refine ⟨⟨by decide, ?_⟩, ?_, ?_, ?_⟩
  · exact (addItem_upsert_invariant [⟨7, 2⟩] 3 4).1 (by decide)
  · have h := (addItem_upsert_invariant [⟨7, 2⟩] 7 3).2.1 [] 2 [] rfl (by decide)
    simpa using h
  · have h := (addItem_upsert_invariant [] 7 0).2.2.2.1 2 3
    simpa using h
  · have h := ((addItem_upsert_invariant [] 7 2).2.2.2.2 Env.ok
      ⟨[(7, ⟨"A", 10, 5, "i"⟩)], [], [], [], 0⟩ 1 ⟨"A", 10, 5, "i"⟩ rfl (by decide)).1
    simpa [setCart, findCart, addItemToLines] using h


theorem getCartLoop_filter (env : Env) (catalog : Catalog) (items : List CartLine) :
    getCartLoop env catalog items =
      ((items.filter (resolves env catalog)).map (lineView catalog),
        ((items.filter (resolves env catalog)).map
          (fun l => (lineView catalog l).subtotal)).sum) := by
  induction items with
  | nil => simp [getCartLoop]
  | cons item rest ih =>
    by_cases hg : env.getFails item.productId
    · have hr : resolves env catalog item = false := by simp [resolves, hg]
      simp [getCartLoop, hg, hr, ih]
    · cases hl : lookupProduct catalog item.productId with
      | none =>
        have hr : resolves env catalog item = false := by simp [resolves, hg, hl]
        simp [getCartLoop, hg, hl, hr, ih]
      | some p =>
        have hr : resolves env catalog item = true := by simp [resolves, hg, hl]
        simp [getCartLoop, hg, hl, hr, ih, lineView]

/-- C9: `GET /cart` silently skips lines whose product lookup fails —
the response lists exactly the resolved lines, its total is the sum of
their price × quantity subtotals, the request still succeeds with that
response, and the stored state (the unresolvable line included) is left
untouched. -/
theorem getCart_skips_unresolved (env : Env) (s : SysState) (uid : Nat)
    (items : List CartLine) (h : findCart s.carts uid = some items) :
    getCart env s uid =
      (((items.filter (resolves env s.catalog)).map (lineView s.catalog),
        ((items.filter (resolves env s.catalog)).map
          (fun l => (lineView s.catalog l).subtotal)).sum), s) := by
  rw [getCart, h]
  simp only [getCartLoop_filter]

theorem getCart_skips_unresolved_witness :
    findCart [(1, [⟨7, 2⟩, ⟨9, 3⟩])] 1 = some [⟨7, 2⟩, ⟨9, 3⟩] ∧
    getCart Env.ok ⟨[(7, ⟨"A", 10, 5, "i"⟩)], [(1, [⟨7, 2⟩, ⟨9, 3⟩])], [], [], 0⟩ 1 =
      (([⟨7, "A", 10, 2, "i", 20⟩], 20),
        ⟨[(7, ⟨"A", 10, 5, "i"⟩)], [(1, [⟨7, 2⟩, ⟨9, 3⟩])], [], [], 0⟩) := by
  constructor
  · decide
  · have h := getCart_skips_unresolved Env.ok
      ⟨[(7, ⟨"A", 10, 5, "i"⟩)], [(1, [⟨7, 2⟩, ⟨9, 3⟩])], [], [], 0⟩ 1
      [⟨7, 2⟩, ⟨9, 3⟩] (by decide)
    rw [h]
    decide

/-- C4: `POST /orders` with no cart document for the user, or a cart
with zero lines, fails with `EmptyCart` and leaves the state exactly as
it was: no order is persisted, no stock is mutated, the cart situation
is unchanged and no notification is sent. -/
theorem createOrder_empty_cart (env : Env) (s : SysState) (uid : Nat)
    (addr : String) (now : Nat)
    (h : findCart s.carts uid = none ∨ findCart s.carts uid = some []) :
    createOrder env s uid addr now = (.error .emptyCart, s) := by
  rcases h with h | h
  · rw [createOrder, h]
  · rw [createOrder, h]
    simp

theorem createOrder_empty_cart_witness :
    (findCart [(2, [⟨7, 1⟩])] 1 = none ∨ findCart [(2, [⟨7, 1⟩])] 1 = some []) ∧
    createOrder Env.ok ⟨[(7, ⟨"A", 10, 5, "i"⟩)], [(2, [⟨7, 1⟩])], [], [], 0⟩ 1 "addr" 3 =
      (.error .emptyCart, ⟨[(7, ⟨"A", 10, 5, "i"⟩)], [(2, [⟨7, 1⟩])], [], [], 0⟩) :=
  ⟨Or.inl (by decide),
    createOrder_empty_cart Env.ok ⟨[(7, ⟨"A", 10, 5, "i"⟩)], [(2, [⟨7, 1⟩])], [], [], 0⟩
      1 "addr" 3 (Or.inl (by decide))⟩

theorem findAndUpdate_none (orders : List Order) (oid uid : Nat) (st : OrderStatus)
    (now : Nat) (h : ∀ o ∈ orders, ¬(o.orderId = oid ∧ o.userId = uid)) :
    findAndUpdate orders oid uid st now = none := by
  induction orders with
  | nil => rfl
  | cons o rest ih =>
    have ho := h o (List.mem_cons_self _ _)
    have hr := ih fun o' h' => h o' (List.mem_cons_of_mem _ h')
    simp [findAndUpdate, ho, hr]

theorem findAndUpdate_of_findById (orders : List Order) (oid uid : Nat)
    (st : OrderStatus) (now : Nat) (o : Order) (h : findById orders oid uid = some o) :
    ∃ rest', findAndUpdate orders oid uid st now =
        some ({ o with status := st, updatedAt := now }, rest') ∧
      findById rest' oid uid = some { o with status := st, updatedAt := now } := by
  induction orders with
  | nil => simp [findById] at h
  | cons o0 rest ih =>
    by_cases hc : o0.orderId = oid ∧ o0.userId = uid
    · rw [findById, if_pos hc, Option.some_inj] at h
      subst h
      exact ⟨{ o0 with status := st, updatedAt := now } :: rest,
        by simp [findAndUpdate, hc], by simp [findById, hc]⟩
    · rw [findById, if_neg hc] at h
      obtain ⟨rest', h1, h2⟩ := ih h
      refine ⟨o0 :: rest', ?_, ?_⟩
      · simp [findAndUpdate, hc, h1]
      · simp [findById, hc, h2]

/-- C6: `PATCH /orders/:id/status` is a 404 when no order with that id is
owned by that user, and otherwise overwrites status and updatedAt
unconditionally — the new status is arbitrary, with no transition-graph
validation against the old one — returning and persisting the updated
order. -/
theorem updateStatus_unconditional (env : Env) (s : SysState) (oid uid : Nat)
    (st : OrderStatus) (now : Nat) :
    ((∀ o ∈ s.orders, ¬(o.orderId = oid ∧ o.userId = uid)) →
      updateStatus env s oid uid st now = (none, s)) ∧
    (∀ o, findById s.orders oid uid = some o →
      (updateStatus env s oid uid st now).1 =
        some { o with status := st, updatedAt := now } ∧
      findById (updateStatus env s oid uid st now).2.orders oid uid =
        some { o with status := st, updatedAt := now }) := by
  constructor
  · intro h
    rw [updateStatus, findAndUpdate_none s.orders oid uid st now h]
  · intro o h
    obtain ⟨rest', h1, h2⟩ := findAndUpdate_of_findById s.orders oid uid st now o h
    rw [updateStatus, h1]
    by_cases hn : env.notifyFails
    · simp [hn, h2]
    · simp [hn, h2]

theorem updateStatus_unconditional_witness :
    (findById [⟨1, 5, [], 0, .delivered, .pending, "a", 4, 4⟩] 1 5 =
      some ⟨1, 5, [], 0, .delivered, .pending, "a", 4, 4⟩) ∧
    (updateStatus Env.ok ⟨[], [], [⟨1, 5, [], 0, .delivered, .pending, "a", 4, 4⟩], [], 2⟩
        1 5 .pending 9).1 = some ⟨1, 5, [], 0, .pending, .pending, "a", 4, 9⟩ ∧
    (∀ o ∈ ([⟨1, 5, [], 0, .delivered, .pending, "a", 4, 4⟩] : List Order),
      ¬(o.orderId = 3 ∧ o.userId = 5)) ∧
    updateStatus Env.ok ⟨[], [], [⟨1, 5, [], 0, .delivered, .pending, "a", 4, 4⟩], [], 2⟩
        3 5 .pending 9 =
      (none, ⟨[], [], [⟨1, 5, [], 0, .delivered, .pending, "a", 4, 4⟩], [], 2⟩) := by
  refine ⟨by decide, ?_, by decide, ?_⟩
  · exact ((updateStatus_unconditional Env.ok
      ⟨[], [], [⟨1, 5, [], 0, .delivered, .pending, "a", 4, 4⟩], [], 2⟩ 1 5 .pending 9).2
      ⟨1, 5, [], 0, .delivered, .pending, "a", 4, 4⟩ (by decide)).1
  · exact (updateStatus_unconditional Env.ok
      ⟨[], [], [⟨1, 5, [], 0, .delivered, .pending, "a", 4, 4⟩], [], 2⟩ 3 5 .pending 9).1
      (by decide)

theorem findById_eq_none (orders : List Order) (oid uid : Nat)
    (h : ∀ o ∈ orders, ¬(o.orderId = oid ∧ o.userId = uid)) :
    findById orders oid uid = none := by
  induction orders with
  | nil => rfl
  | cons o rest ih =>
    have ho := h o (List.mem_cons_self _ _)
    have hr := ih fun o' h' => h o' (List.mem_cons_of_mem _ h')
    simp [findById, ho, hr]

theorem findById_some (orders : List Order) (oid uid : Nat) (o : Order)
    (h : findById orders oid uid = some o) :
    o.orderId = oid ∧ o.userId = uid ∧ o ∈ orders := by
  induction orders with
  | nil => simp [findById] at h
  | cons o0 rest ih =>
    by_cases hc : o0.orderId = oid ∧ o0.userId = uid
    · rw [findById, if_pos hc, Option.some_inj] at h
      subst h
      exact ⟨hc.1, hc.2, List.mem_cons_self _ _⟩
    · rw [findById, if_neg hc] at h
      obtain ⟨h1, h2, h3⟩ := ih h
      exact ⟨h1, h2, List.mem_cons_of_mem _ h3⟩

/-- C7: reads of the order store are scoped to the requesting user: a
`findById` result is always owned by the caller and matches the id; with
distinct order ids, querying a stored order's id under a different
userId yields `NotFound` even though the id is valid; and `listByUser`
returns only the caller's orders, sorted by createdAt descending. -/
theorem order_reads_user_scoped (orders : List Order)
    (hids : (orders.map Order.orderId).Nodup) :
    (∀ oid uid o, findById orders oid uid = some o →
      o.userId = uid ∧ o.orderId = oid) ∧
    (∀ o ∈ orders, ∀ uid, uid ≠ o.userId → findById orders o.orderId uid = none) ∧
    (∀ uid, (∀ o ∈ listByUser orders uid, o.userId = uid) ∧
      List.Sorted laterFirst (listByUser orders uid)) := by
  refine ⟨?_, ?_, ?_⟩
  · intro oid uid o h
    obtain ⟨h1, h2, _⟩ := findById_some orders oid uid o h
    exact ⟨h2, h1⟩
  · intro o ho uid huid
    apply findById_eq_none
    intro o' ho' hc
    have : o' = o := List.inj_on_of_nodup_map hids ho' ho hc.1
    subst this
    exact huid hc.2.symm
  · intro uid
    constructor
    · intro o ho
      rw [listByUser, List.mem_insertionSort] at ho
      have := List.mem_filter.mp ho
      simpa using this.2
    · exact List.sorted_insertionSort laterFirst _

theorem order_reads_user_scoped_witness :
    (([⟨1, 5, [], 0, .pending, .pending, "a", 4, 4⟩,
       ⟨2, 5, [], 0, .pending, .pending, "a", 9, 9⟩] : List Order).map Order.orderId).Nodup ∧
    findById [⟨1, 5, [], 0, .pending, .pending, "a", 4, 4⟩,
       ⟨2, 5, [], 0, .pending, .pending, "a", 9, 9⟩] 1 8 = none ∧
    List.Sorted laterFirst (listByUser [⟨1, 5, [], 0, .pending, .pending, "a", 4, 4⟩,
       ⟨2, 5, [], 0, .pending, .pending, "a", 9, 9⟩] 5) := by
  refine ⟨by decide, ?_, ?_⟩
  · exact (order_reads_user_scoped _ (by decide)).2.1
      ⟨1, 5, [], 0, .pending, .pending, "a", 4, 4⟩ (by simp) 8 (by decide)
  · exact ((order_reads_user_scoped
      [⟨1, 5, [], 0, .pending, .pending, "a", 4, 4⟩,
       ⟨2, 5, [], 0, .pending, .pending, "a", 9, 9⟩] (by decide)).2.2 5).2

theorem map_toOrderItem_productId (catalog : Catalog) (items : List CartLine) :
    (items.map (toOrderItem catalog)).map OrderItem.productId =
      items.map CartLine.productId := by
  induction items with
  | nil => rfl
  | cons l ls ih =>
    cases hl : lookupProduct catalog l.productId with
    | none => simp [toOrderItem, hl, ih]
    | some p => simp [toOrderItem, hl, ih]

theorem buildOrderItems_ok (env : Env) (catalog : Catalog) (items : List CartLine)
    (hg : ∀ l ∈ items, env.getFails l.productId = false)
    (hres : ∀ l ∈ items, ∃ p, lookupProduct catalog l.productId = some p ∧
      l.quantity ≤ p.stock) :
    buildOrderItems env catalog items =
      .ok (items.map (toOrderItem catalog),
        orderTotal (items.map (toOrderItem catalog))) := by
  induction items with
  | nil => simp [buildOrderItems, orderTotal]
  | cons l ls ih =>
    obtain ⟨p, hp, hq⟩ := hres l (List.mem_cons_self _ _)
    have hgl := hg l (List.mem_cons_self _ _)
    have hrec := ih (fun l' h' => hg l' (List.mem_cons_of_mem _ h'))
      (fun l' h' => hres l' (List.mem_cons_of_mem _ h'))
    have hnl : ¬p.stock < l.quantity := not_lt.mpr hq
    simp [buildOrderItems, hgl, hp, hnl, hrec, toOrderItem, orderTotal]

theorem buildOrderItems_insufficient (env : Env) (catalog : Catalog)
    (pre post : List CartLine) (l : CartLine) (p : Product)
    (hgpre : ∀ l' ∈ pre, env.getFails l'.productId = false)
    (hpre : ∀ l' ∈ pre, ∃ q, lookupProduct catalog l'.productId = some q ∧
      l'.quantity ≤ q.stock)
    (hgl : env.getFails l.productId = false)
    (hl : lookupProduct catalog l.productId = some p)
    (hstock : p.stock < l.quantity) :
    buildOrderItems env catalog (pre ++ l :: post) =
      .error (.insufficientStock p.name) := by
  induction pre with
  | nil => simp [buildOrderItems, hgl, hl, hstock]
  | cons x pre' ih =>
    obtain ⟨q, hq, hqs⟩ := hpre x (List.mem_cons_self _ _)
    have hgx := hgpre x (List.mem_cons_self _ _)
    have hnl : ¬q.stock < x.quantity := not_lt.mpr hqs
    have hrec := ih (fun l' h' => hgpre l' (List.mem_cons_of_mem _ h'))
      (fun l' h' => hpre l' (List.mem_cons_of_mem _ h'))
    simp [buildOrderItems, hgx, hq, hnl, hrec]

theorem buildOrderItems_ok_forall (env : Env) (catalog : Catalog)
    (items : List CartLine) (ois : List OrderItem) (t : Int)
    (h : buildOrderItems env catalog items = .ok (ois, t)) :
    ∀ l ∈ items, env.getFails l.productId = false ∧
      ∃ p, lookupProduct catalog l.productId = some p ∧ l.quantity ≤ p.stock := by
  induction items generalizing ois t with
  | nil => simp
  | cons l0 ls ih =>
    by_cases hg : env.getFails l0.productId
    · simp [buildOrderItems, hg] at h
    · cases hl : lookupProduct catalog l0.productId with
      | none => simp [buildOrderItems, hg, hl] at h
      | some p =>
        by_cases hs : p.stock < l0.quantity
        · simp [buildOrderItems, hg, hl, hs] at h
        · cases hrest : buildOrderItems env catalog ls with
          | error e => simp [buildOrderItems, hg, hl, hs, hrest] at h
          | ok pair =>
            intro l hm
            rcases List.mem_cons.mp hm with rfl | hm'
            · exact ⟨eq_false_of_ne_true hg, p, hl, not_lt.mp hs⟩
            · exact ih pair.1 pair.2 (by rw [hrest]) l hm'

theorem decrementLoop_frame (env : Env) (ois : List OrderItem) (catalog : Catalog)
    (pid : Nat) (h : pid ∉ ois.map OrderItem.productId) :
    lookupProduct (decrementLoop env catalog ois).2 pid = lookupProduct catalog pid := by
  induction ois generalizing catalog with
  | nil => rfl
  | cons i rest ih =>
    simp only [List.map_cons, List.mem_cons] at h
    push_neg at h
    by_cases hs : env.stockFails i.productId
    · simp [decrementLoop, hs]
    · cases hl : lookupProduct catalog i.productId with
      | none => simp [decrementLoop, hs, adjustStock, hl]
      | some p =>
        by_cases hlt : p.stock < i.quantity
        · simp [decrementLoop, hs, adjustStock, hl, hlt]
        · simp only [decrementLoop, hs, if_false, adjustStock, hl, hlt, Bool.false_eq_true]
          rw [ih _ h.2, lookupProduct_updateProduct_ne _ _ _ _ h.1]

theorem decrementLoop_ok (env : Env) (ois : List OrderItem) (catalog : Catalog)
    (hnd : (ois.map OrderItem.productId).Nodup)
    (hs : ∀ i ∈ ois, env.stockFails i.productId = false)
    (hres : ∀ i ∈ ois, ∃ p, lookupProduct catalog i.productId = some p ∧
      i.quantity ≤ p.stock) :
    (decrementLoop env catalog ois).1 = some () ∧
    ∀ i ∈ ois, ∀ p, lookupProduct catalog i.productId = some p →
      lookupProduct (decrementLoop env catalog ois).2 i.productId =
        some { p with stock := p.stock - i.quantity } := by
  induction ois generalizing catalog with
  | nil => simp [decrementLoop]
  | cons i rest ih =>
    obtain ⟨p, hp, hq⟩ := hres i (List.mem_cons_self _ _)
    have hsi := hs i (List.mem_cons_self _ _)
    have hnl : ¬p.stock < i.quantity := not_lt.mpr hq
    simp only [List.map_cons, List.nodup_cons] at hnd
    have hupd : lookupProduct (updateProduct catalog i.productId
        { p with stock := p.stock - i.quantity }) i.productId =
        some { p with stock := p.stock - i.quantity } :=
      lookupProduct_updateProduct_self _ _ _ _ hp
    have hres' : ∀ j ∈ rest, ∃ q, lookupProduct (updateProduct catalog i.productId
        { p with stock := p.stock - i.quantity }) j.productId = some q ∧
        j.quantity ≤ q.stock := by
      intro j hj
      obtain ⟨q, hql, hqs⟩ := hres j (List.mem_cons_of_mem _ hj)
      refine ⟨q, ?_, hqs⟩
      rw [lookupProduct_updateProduct_ne]
      · exact hql
      · intro hjp
        exact hnd.1 (hjp ▸ List.mem_map_of_mem OrderItem.productId hj)
    obtain ⟨ih1, ih2⟩ := ih (updateProduct catalog i.productId
        { p with stock := p.stock - i.quantity }) hnd.2
      (fun j hj => hs j (List.mem_cons_of_mem _ hj)) hres'
    have hstep : decrementLoop env catalog (i :: rest) =
        decrementLoop env (updateProduct catalog i.productId
          { p with stock := p.stock - i.quantity }) rest := by
      simp [decrementLoop, hsi, adjustStock, hp, hnl]
    refine ⟨by rw [hstep]; exact ih1, ?_⟩
    intro j hj q hql
    rcases List.mem_cons.mp hj with rfl | hj'
    · rw [hp] at hql
      injection hql with hql
      subst hql
      rw [hstep, decrementLoop_frame]
      · exact hupd
      · intro hmem
        exact hnd.1 hmem
    · rw [hstep]
      apply ih2 j hj'
      obtain ⟨q', hql', _⟩ := hres' j hj'
      rw [hql']
      rw [lookupProduct_updateProduct_ne] at hql'
      · rw [hql] at hql'
        injection hql' with h'
        rw [h']
      · intro hjp
        exact hnd.1 (hjp ▸ List.mem_map_of_mem OrderItem.productId hj')

/-- C1: for a cart with at least one line, no duplicate productIds, and
every line's product resolving at the catalog (all collaborator calls
going through), checkout succeeds iff every line's quantity is at most
the product's current stock; and on the first violating line it fails
with `InsufficientStock(productName)`, returning the state exactly as it
was — no order persisted, no stock mutated, cart unchanged. -/
theorem createOrder_stock_iff (env : Env) (s : SysState) (uid : Nat) (addr : String)
    (now : Nat) (items : List CartLine)
    (hcart : findCart s.carts uid = some items)
    (hne : items ≠ [])
    (hnd : (items.map CartLine.productId).Nodup)
    (hg : ∀ pid, env.getFails pid = false)
    (hsf : ∀ pid, env.stockFails pid = false)
    (hres : ∀ l ∈ items, ∃ p, lookupProduct s.catalog l.productId = some p) :
    ((∃ o s', createOrder env s uid addr now = (.ok o, s')) ↔
      ∀ l ∈ items, ∀ p, lookupProduct s.catalog l.productId = some p →
        l.quantity ≤ p.stock) ∧
    (∀ pre l post p, items = pre ++ l :: post →
      (∀ l' ∈ pre, ∀ q, lookupProduct s.catalog l'.productId = some q →
        l'.quantity ≤ q.stock) →
      lookupProduct s.catalog l.productId = some p →
      p.stock < l.quantity →
      createOrder env s uid addr now = (.error (.insufficientStock p.name), s)) := by
  have hie : items.isEmpty = false := by
    cases items with
    | nil => exact absurd rfl hne
    | cons a b => rfl
  constructor
  · constructor
    · rintro ⟨o, s', hok⟩
      rw [createOrder, hcart] at hok
      simp only [hie, Bool.false_eq_true, if_false] at hok
      cases hb : buildOrderItems env s.catalog items with
      | error e => rw [hb] at hok; simp at hok
      | ok pair =>
        have hall := buildOrderItems_ok_forall env s.catalog items pair.1 pair.2
          (by rw [hb])
        intro l hl p hp
        obtain ⟨_, p', hp', hq⟩ := hall l hl
        rw [hp] at hp'
        injection hp' with hpp
        rw [hpp]
        exact hq
    · intro hpass
      have hpass' : ∀ l ∈ items, ∃ p, lookupProduct s.catalog l.productId = some p ∧
          l.quantity ≤ p.stock := by
        intro l hl
        obtain ⟨p, hp⟩ := hres l hl
        exact ⟨p, hp, hpass l hl p hp⟩
      have hb := buildOrderItems_ok env s.catalog items (fun l _ => hg _) hpass'
      have hndois : ((items.map (toOrderItem s.catalog)).map OrderItem.productId).Nodup := by
        rw [map_toOrderItem_productId]; exact hnd
      have hresois : ∀ i ∈ items.map (toOrderItem s.catalog),
          ∃ p, lookupProduct s.catalog i.productId = some p ∧ i.quantity ≤ p.stock := by
        intro i hi
        obtain ⟨l, hl, rfl⟩ := List.mem_map.mp hi
        obtain ⟨p, hp, hq⟩ := hpass' l hl
        refine ⟨p, ?_, ?_⟩
        · simp [toOrderItem, hp]
        · simp [toOrderItem, hp]
          exact hq
      obtain ⟨hd1, _⟩ := decrementLoop_ok env (items.map (toOrderItem s.catalog))
        s.catalog hndois (fun i _ => hsf _) hresois
      rcases hdl : decrementLoop env s.catalog (items.map (toOrderItem s.catalog))
        with ⟨f, c⟩
      rw [hdl] at hd1
      simp only at hd1
      subst hd1
      refine ⟨{ orderId := s.nextOrderId, userId := uid,
                items := items.map (toOrderItem s.catalog),
                totalAmount := orderTotal (items.map (toOrderItem s.catalog)),
                status := .pending, paymentStatus := .pending, shippingAddress := addr,
                createdAt := now, updatedAt := now },
        (createOrder env s uid addr now).2, Prod.ext_iff.mpr ⟨?_, rfl⟩⟩
      rw [createOrder, hcart]
      simp only [hie, Bool.false_eq_true, if_false, hb, hdl]
  · intro pre l post p hsplit hpre hl hlt
    subst hsplit
    have hpre' : ∀ l' ∈ pre, ∃ q, lookupProduct s.catalog l'.productId = some q ∧
        l'.quantity ≤ q.stock := by
      intro l' h'
      obtain ⟨q, hq⟩ := hres l' (List.mem_append_left _ h')
      exact ⟨q, hq, hpre l' h' q hq⟩
    have hb := buildOrderItems_insufficient env s.catalog pre post l p
      (fun l' _ => hg _) hpre' (hg _) hl hlt
    rw [createOrder, hcart]
    simp only [hie, Bool.false_eq_true, if_false, hb]

theorem createOrder_stock_iff_witness :
    findCart demoStateBig.carts 1 = some [⟨11, 10⟩] ∧
    createOrder Env.ok demoStateBig 1 "addr" 7 =
      (.error (.insufficientStock "p1"), demoStateBig) := by
  refine ⟨by decide, ?_⟩
  exact (createOrder_stock_iff Env.ok demoStateBig 1 "addr" 7 [⟨11, 10⟩]
      (by decide) (by decide) (by decide) (fun pid => rfl) (fun pid => rfl)
      (fun l hl => by
        rw [List.mem_singleton] at hl
        subst hl
        exact ⟨⟨"p1", 10, 5, "img"⟩, rfl⟩)).2
    [] ⟨11, 10⟩ [] ⟨"p1", 10, 5, "img"⟩ rfl
    (fun l' h' => absurd h' (List.not_mem_nil l')) rfl (by decide)

theorem findCart_eq_none (carts : Carts) (uid : Nat)
    (h : uid ∉ carts.map Prod.fst) : findCart carts uid = none := by
  induction carts with
  | nil => rfl
  | cons e rest ih =>
    obtain ⟨k, ls⟩ := e
    simp only [List.map_cons, List.mem_cons] at h
    push_neg at h
    simp [findCart, Ne.symm h.1, ih h.2]

theorem findCart_removeCart (carts : Carts) (uid : Nat)
    (hkeys : (carts.map Prod.fst).Nodup) :
    findCart (removeCart carts uid) uid = none := by
  induction carts with
  | nil => rfl
  | cons e rest ih =>
    obtain ⟨k, ls⟩ := e
    simp only [List.map_cons, List.nodup_cons] at hkeys
    by_cases hk : k = uid
    · subst hk
      simp only [removeCart, if_pos rfl]
      exact findCart_eq_none rest k hkeys.1
    · simp [removeCart, hk, findCart, ih hkeys.2]

theorem createOrder_ok_full (env : Env) (s : SysState) (uid : Nat) (addr : String)
    (now : Nat) (items : List CartLine)
    (hcart : findCart s.carts uid = some items)
    (hne : items ≠ [])
    (hnd : (items.map CartLine.productId).Nodup)
    (hg : ∀ pid, env.getFails pid = false)
    (hsf : ∀ pid, env.stockFails pid = false)
    (hpass : ∀ l ∈ items, ∃ p, lookupProduct s.catalog l.productId = some p ∧
      l.quantity ≤ p.stock) :
    ∃ c, (∀ l ∈ items, ∀ p, lookupProduct s.catalog l.productId = some p →
        lookupProduct c l.productId = some { p with stock := p.stock - l.quantity }) ∧
      createOrder env s uid addr now =
        (.ok ⟨s.nextOrderId, uid, items.map (toOrderItem s.catalog),
            orderTotal (items.map (toOrderItem s.catalog)), .pending, .pending,
            addr, now, now⟩,
          ⟨c, removeCart s.carts uid,
            s.orders ++ [⟨s.nextOrderId, uid, items.map (toOrderItem s.catalog),
              orderTotal (items.map (toOrderItem s.catalog)), .pending, .pending,
              addr, now, now⟩],
            if env.notifyFails then s.notifications
            else s.notifications ++ [⟨"order_created", uid, s.nextOrderId⟩],
            s.nextOrderId + 1⟩) := by
  have hie : items.isEmpty = false := by
    cases items with
    | nil => exact absurd rfl hne
    | cons a b => rfl
  have hb := buildOrderItems_ok env s.catalog items (fun l _ => hg _) hpass
  have hndois : ((items.map (toOrderItem s.catalog)).map OrderItem.productId).Nodup := by
    rw [map_toOrderItem_productId]; exact hnd
  have hresois : ∀ i ∈ items.map (toOrderItem s.catalog),
      ∃ p, lookupProduct s.catalog i.productId = some p ∧ i.quantity ≤ p.stock := by
    intro i hi
    obtain ⟨l, hl, rfl⟩ := List.mem_map.mp hi
    obtain ⟨p, hp, hq⟩ := hpass l hl
    refine ⟨p, ?_, ?_⟩
    · simp [toOrderItem, hp]
    · simp [toOrderItem, hp]
      exact hq
  obtain ⟨hd1, hd2⟩ := decrementLoop_ok env (items.map (toOrderItem s.catalog))
    s.catalog hndois (fun i _ => hsf _) hresois
  rcases hdl : decrementLoop env s.catalog (items.map (toOrderItem s.catalog))
    with ⟨f, c⟩
  rw [hdl] at hd1 hd2
  simp only at hd1 hd2
  subst hd1
  refine ⟨c, ?_, ?_⟩
  · intro l hl p hp
    have e1 : (toOrderItem s.catalog l).productId = l.productId := by
      simp [toOrderItem, hp]
    have e2 : (toOrderItem s.catalog l).quantity = l.quantity := by
      simp [toOrderItem, hp]
    have hi := hd2 (toOrderItem s.catalog l) (List.mem_map_of_mem _ hl) p
      (by rw [e1]; exact hp)
    rw [e1, e2] at hi
    exact hi
  · rw [createOrder, hcart]
    simp only [hie, Bool.false_eq_true, if_false, hb, hdl]
    by_cases hn : env.notifyFails
    · simp [hn]
    · simp [hn]

theorem toOrderItem_productId (catalog : Catalog) (l : CartLine) :
    (toOrderItem catalog l).productId = l.productId := by
  cases hl : lookupProduct catalog l.productId <;> simp [toOrderItem, hl]

/-- C2: after a successful `createOrder` the user's cart document is
deleted, the persisted order carries totalAmount = Σ line price ×
quantity, status `pending`, paymentStatus `pending`, and each ordered
product's stock is decreased by the ordered quantity; concretely, the
spec's scenario — cart [(p1, qty 2)] with p1 {price 10, stock 5} —
returns totalAmount 20, leaves stock 3 and deletes the cart. -/
theorem createOrder_success_effects (env : Env) (s : SysState) (uid : Nat)
    (addr : String) (now : Nat) (items : List CartLine)
    (hcart : findCart s.carts uid = some items)
    (hne : items ≠ [])
    (hnd : (items.map CartLine.productId).Nodup)
    (hkeys : (s.carts.map Prod.fst).Nodup)
    (hg : ∀ pid, env.getFails pid = false)
    (hsf : ∀ pid, env.stockFails pid = false)
    (hpass : ∀ l ∈ items, ∃ p, lookupProduct s.catalog l.productId = some p ∧
      l.quantity ≤ p.stock) :
    (∃ o s', createOrder env s uid addr now = (.ok o, s') ∧
      o.totalAmount = orderTotal o.items ∧
      o.status = .pending ∧ o.paymentStatus = .pending ∧
      o.items = items.map (toOrderItem s.catalog) ∧
      s'.orders = s.orders ++ [o] ∧
      findCart s'.carts uid = none ∧
      (∀ l ∈ items, ∀ p, lookupProduct s.catalog l.productId = some p →
        lookupProduct s'.catalog l.productId =
          some { p with stock := p.stock - l.quantity })) ∧
    createOrder Env.ok demoState 1 "addr" 7 =
      (.ok ⟨0, 1, [⟨11, "p1", 10, 2, "img"⟩], 20, .pending, .pending, "addr", 7, 7⟩,
        ⟨[(11, ⟨"p1", 10, 3, "img"⟩)], [],
          [⟨0, 1, [⟨11, "p1", 10, 2, "img"⟩], 20, .pending, .pending, "addr", 7, 7⟩],
          [⟨"order_created", 1, 0⟩], 1⟩) := by
  constructor
  · obtain ⟨c, hstock, heq⟩ :=
      createOrder_ok_full env s uid addr now items hcart hne hnd hg hsf hpass
    refine ⟨_, _, heq, rfl, rfl, rfl, rfl, rfl, ?_, ?_⟩
    · exact findCart_removeCart s.carts uid hkeys
    · exact hstock
  · rfl

theorem createOrder_success_effects_witness :
    findCart demoState.carts 1 = some [⟨11, 2⟩] ∧
    (∃ o s', createOrder Env.ok demoState 1 "addr" 7 = (.ok o, s') ∧
      o.totalAmount = orderTotal o.items ∧
      o.status = .pending ∧ o.paymentStatus = .pending ∧
      o.items = [(⟨11, 2⟩ : CartLine)].map (toOrderItem demoState.catalog) ∧
      s'.orders = demoState.orders ++ [o] ∧
      findCart s'.carts 1 = none ∧
      (∀ l ∈ ([⟨11, 2⟩] : List CartLine), ∀ p,
        lookupProduct demoState.catalog l.productId = some p →
        lookupProduct s'.catalog l.productId =
          some { p with stock := p.stock - l.quantity })) := by
  refine ⟨by decide, ?_⟩
  exact (createOrder_success_effects Env.ok demoState 1 "addr" 7 [⟨11, 2⟩]
    (by decide) (by decide) (by decide) (by decide) (fun pid => rfl) (fun pid => rfl)
    (fun l hl => by
      rw [List.mem_singleton] at hl
      subst hl
      exact ⟨⟨"p1", 10, 5, "img"⟩, rfl, by decide⟩)).1

/-- C3 counterexample: with the catalog healthy and only the
stock-decrement `PATCH` call failing after the order is persisted,
checkout responds with the generic 500 `InternalError` — the caller does
NOT receive the persisted order as a success result — while the order
sits in the order store and the cart was not cleared. -/
theorem createOrder_decrement_failure_surfaced :
    createOrder envStockFail demoState 1 "addr" 7 =
      (.error .internalError,
        ⟨demoCatalog, [(1, [⟨11, 2⟩])],
          [⟨0, 1, [⟨11, "p1", 10, 2, "img"⟩], 20, .pending, .pending, "addr", 7, 7⟩],
          [], 1⟩) := rfl

/-- C3 amended: collaborator failures after persistence are not treated
uniformly. A notification failure is absorbed — the caller still gets
the persisted order as the success result; but a stock-decrement failure
(here on the first line) escapes to the outer catch: the caller receives
the generic `InternalError` even though the order is persisted, and the
cart is left uncleared with the catalog unchanged. -/
theorem createOrder_post_persist_failures (env : Env) (s : SysState) (uid : Nat)
    (addr : String) (now : Nat) (items : List CartLine)
    (hcart : findCart s.carts uid = some items)
    (hne : items ≠ [])
    (hnd : (items.map CartLine.productId).Nodup)
    (hg : ∀ pid, env.getFails pid = false)
    (hpass : ∀ l ∈ items, ∃ p, lookupProduct s.catalog l.productId = some p ∧
      l.quantity ≤ p.stock) :
    ((∀ pid, env.stockFails pid = false) →
      ∃ o s', createOrder env s uid addr now = (.ok o, s')) ∧
    (∀ l rest, items = l :: rest → env.stockFails l.productId = true →
      createOrder env s uid addr now =
        (.error .internalError,
          { s with
            orders := s.orders ++ [⟨s.nextOrderId, uid, items.map (toOrderItem s.catalog), orderTotal (items.map (toOrderItem s.catalog)), .pending, .pending, addr, now, now⟩],
            nextOrderId := s.nextOrderId + 1 })) := by
  constructor
  · intro hsf
    obtain ⟨c, _, heq⟩ :=
      createOrder_ok_full env s uid addr now items hcart hne hnd hg hsf hpass
    exact ⟨_, _, heq⟩
  · intro l rest hsplit hsl
    subst hsplit
    have hb := buildOrderItems_ok env s.catalog (l :: rest) (fun l' _ => hg _) hpass
    have hsf' : env.stockFails (toOrderItem s.catalog l).productId = true := by
      rw [toOrderItem_productId]; exact hsl
    rw [createOrder, hcart]
    simp only [List.isEmpty_cons, Bool.false_eq_true, if_false, hb, List.map_cons,
      decrementLoop, hsf', if_true]

theorem createOrder_post_persist_failures_witness :
    findCart demoState.carts 1 = some [⟨11, 2⟩] ∧
    envStockFail.stockFails 11 = true ∧
    (∃ o s', createOrder Env.ok demoState 1 "addr" 7 = (.ok o, s')) ∧
    createOrder envStockFail demoState 1 "addr" 7 =
      (.error .internalError,
        ⟨demoCatalog, [(1, [⟨11, 2⟩])],
          [⟨0, 1, [⟨11, "p1", 10, 2, "img"⟩], 20, .pending, .pending, "addr", 7, 7⟩],
          [], 1⟩) := by
  refine ⟨by decide, rfl, ?_, ?_⟩
  · exact (createOrder_post_persist_failures Env.ok demoState 1 "addr" 7 [⟨11, 2⟩]
      (by decide) (by decide) (by decide) (fun pid => rfl)
      (fun l hl => by
        rw [List.mem_singleton] at hl
        subst hl
        exact ⟨⟨"p1", 10, 5, "img"⟩, rfl, by decide⟩)).1 (fun pid => rfl)
  · exact (createOrder_post_persist_failures envStockFail demoState 1 "addr" 7 [⟨11, 2⟩]
      (by decide) (by decide) (by decide) (fun pid => rfl)
      (fun l hl => by
        rw [List.mem_singleton] at hl
        subst hl
        exact ⟨⟨"p1", 10, 5, "img"⟩, rfl, by decide⟩)).2 ⟨11, 2⟩ [] rfl rfl
